import Mathlib

set_option maxRecDepth 100000

/-!
Shallow embedding of `localpaste.py` (a single-file pastebin HTTP service).

Bytes are modelled as `List Nat` (each element a byte value), the store
directory (`args.datadir`) as an association list from filename to file
contents, and the process working directory (which `os.path.isfile` consults
in `generate_name`) as a list of the names of the files it contains.
Exceptions that escape a handler are modelled by `Option`/`none`.
-/

namespace LocalPaste

/-! ### 32-bit helpers and SHA-1 (the source calls `hashlib.sha1`) -/

def w32 (n : Nat) : Nat := n % 4294967296

/-- Rotate a 32-bit value left by `k` (callers keep `x < 2 ^ 32`). -/
def rotl (k x : Nat) : Nat := x * 2 ^ k % 4294967296 + x / 2 ^ (32 - k)

def xor4 (a b c d : Nat) : Nat := Nat.xor (Nat.xor a b) (Nat.xor c d)

/-- Big-endian 32-bit words from bytes. -/
def bytesToWords : List Nat → List Nat
  | b0 :: b1 :: b2 :: b3 :: rest =>
      (((b0 * 256 + b1) * 256 + b2) * 256 + b3) :: bytesToWords rest
  | _ => []

def be32 (n : Nat) : List Nat :=
  [n / 16777216 % 256, n / 65536 % 256, n / 256 % 256, n % 256]

def be64 (n : Nat) : List Nat :=
  [n / 2 ^ 56 % 256, n / 2 ^ 48 % 256, n / 2 ^ 40 % 256, n / 2 ^ 32 % 256,
   n / 2 ^ 24 % 256, n / 2 ^ 16 % 256, n / 2 ^ 8 % 256, n % 256]

/-- SHA-1 padding: a 0x80 byte, zeros to 56 mod 64, then the bit length. -/
def sha1Pad (msg : List Nat) : List Nat :=
  msg ++ 128 :: List.replicate ((119 - msg.length % 64) % 64) 0 ++ be64 (8 * msg.length)

/-- 64-byte blocks.  Structural recursion on a fuel equal to the length
(each step consumes at least one byte, so the fuel never runs out). -/
def chunks64Go : Nat → List Nat → List (List Nat)
  | _, [] => []
  | 0, _ :: _ => []
  | fuel + 1, b :: rest => (b :: rest.take 63) :: chunks64Go fuel (rest.drop 63)

def chunks64 (l : List Nat) : List (List Nat) := chunks64Go l.length l

/-- Extend 16 message words to the 80-entry SHA-1 schedule. -/
def sha1Expand (w16 : List Nat) : List Nat :=
  (List.range 64).foldl
    (fun w _ =>
      w ++ [rotl 1 (xor4 (w.getD (w.length - 3) 0) (w.getD (w.length - 8) 0)
        (w.getD (w.length - 14) 0) (w.getD (w.length - 16) 0))])
    w16

def sha1F (t b c d : Nat) : Nat :=
  if t ≤ 19 then Nat.lor (Nat.land b c) (Nat.land (Nat.xor b 4294967295) d)
  else if t ≤ 39 then xor4 b c d 0
  else if t ≤ 59 then Nat.lor (Nat.lor (Nat.land b c) (Nat.land b d)) (Nat.land c d)
  else xor4 b c d 0

def sha1K (t : Nat) : Nat :=
  if t ≤ 19 then 1518500249 else if t ≤ 39 then 1859775393
  else if t ≤ 59 then 2400959708 else 3395469782

def sha1Round (st : Nat × Nat × Nat × Nat × Nat) (tw : Nat × Nat) :
    Nat × Nat × Nat × Nat × Nat :=
  match st, tw with
  | (a, b, c, d, e), (t, wt) =>
      (w32 (rotl 5 a + sha1F t b c d + e + sha1K t + wt), a, rotl 30 b, c, d)

def sha1Block (h : Nat × Nat × Nat × Nat × Nat) (block : List Nat) :
    Nat × Nat × Nat × Nat × Nat :=
  match h with
  | (h0, h1, h2, h3, h4) =>
      match ((List.range 80).zip (sha1Expand (bytesToWords block))).foldl sha1Round
          (h0, h1, h2, h3, h4) with
      | (a, b, c, d, e) => (w32 (h0 + a), w32 (h1 + b), w32 (h2 + c), w32 (h3 + d), w32 (h4 + e))

/-- SHA-1 digest (20 bytes) of a byte string. -/
def sha1 (msg : List Nat) : List Nat :=
  match (chunks64 (sha1Pad msg)).foldl sha1Block
      (1732584193, 4023233417, 2562383102, 271733878, 3285377520) with
  | (h0, h1, h2, h3, h4) => be32 h0 ++ be32 h1 ++ be32 h2 ++ be32 h3 ++ be32 h4

/-! ### base64 (the source calls `base64.b64encode`) -/

def bAlpha : List Char :=
  "ABCDEFGHIJKLMNOPQRSTUVWXYZabcdefghijklmnopqrstuvwxyz0123456789+/".data

def b64Char (n : Nat) : Char := bAlpha.getD n 'A'

/-- Standard base64 of a byte string, with `=` padding. -/
def b64encode : List Nat → List Char
  | [] => []
  | [b0] => [b64Char (b0 / 4), b64Char (b0 % 4 * 16), '=', '=']
  | [b0, b1] => [b64Char (b0 / 4), b64Char (b0 % 4 * 16 + b1 / 16), b64Char (b1 % 16 * 4), '=']
  | b0 :: b1 :: b2 :: rest =>
      b64Char (b0 / 4) :: b64Char (b0 % 4 * 16 + b1 / 16) ::
      b64Char (b1 % 16 * 4 + b2 / 64) :: b64Char (b2 % 64) :: b64encode rest

/-! ### UTF-8 encoding (`str.encode`) -/

def utf8EncodeChar (n : Nat) : List Nat :=
  if n ≤ 127 then [n]
  else if n ≤ 2047 then [192 + n / 64, 128 + n % 64]
  else if n ≤ 65535 then [224 + n / 4096, 128 + n / 64 % 64, 128 + n % 64]
  else [240 + n / 262144, 128 + n / 4096 % 64, 128 + n / 64 % 64, 128 + n % 64]

def utf8Encode (s : String) : List Nat :=
  (s.data.map (fun c => utf8EncodeChar c.toNat)).flatten

/-! ### UTF-8 decoding (`bytes.decode("utf-8")`, strict) and latin-1 fallback -/

def isCont (b : Nat) : Bool := 128 ≤ b && b ≤ 191

/-- Strict UTF-8 decoding to a list of code points; `none` on any invalid,
overlong, surrogate or out-of-range sequence (Python raises there).
Structural recursion on a fuel equal to the length: each step consumes at
least one byte, so the fuel never runs out. -/
def utf8DecGo : Nat → List Nat → Option (List Nat)
  | _, [] => some []
  | 0, _ :: _ => none
  | fuel + 1, b :: rest =>
    if b ≤ 127 then (utf8DecGo fuel rest).map (fun cps => b :: cps)
    else if b ≤ 193 then none
    else if b ≤ 223 then
      match rest with
      | b1 :: rest2 =>
          if isCont b1 then
            (utf8DecGo fuel rest2).map (fun cps => ((b - 192) * 64 + (b1 - 128)) :: cps)
          else none
      | [] => none
    else if b ≤ 239 then
      match rest with
      | b1 :: b2 :: rest2 =>
          if isCont b1 && isCont b2 then
            let cp := (b - 224) * 4096 + (b1 - 128) * 64 + (b2 - 128)
            if 2048 ≤ cp && !(55296 ≤ cp && cp ≤ 57343) then
              (utf8DecGo fuel rest2).map (fun cps => cp :: cps)
            else none
          else none
      | _ => none
    else if b ≤ 244 then
      match rest with
      | b1 :: b2 :: b3 :: rest2 =>
          if isCont b1 && isCont b2 && isCont b3 then
            let cp := (b - 240) * 262144 + (b1 - 128) * 4096 + (b2 - 128) * 64 + (b3 - 128)
            if 65536 ≤ cp && cp ≤ 1114111 then (utf8DecGo fuel rest2).map (fun cps => cp :: cps)
            else none
          else none
      | _ => none
    else none

def utf8Dec (l : List Nat) : Option (List Nat) := utf8DecGo l.length l

/-- Code points at which Python `str.splitlines` breaks a line. -/
def lineTermCp (n : Nat) : Bool :=
  n = 10 || n = 11 || n = 12 || n = 13 || n = 28 || n = 29 || n = 30 ||
  n = 133 || n = 8232 || n = 8233

/-- First `splitlines` segment of a string given as code points. -/
def splitFirst (cps : List Nat) : List Nat := cps.takeWhile (fun n => !lineTermCp n)

def codepointsToString (cps : List Nat) : String := String.mk (cps.map Char.ofNat)

/-- `line.decode("utf-8").splitlines()[0]`, falling back to latin-1 (byte =
code point) when strict UTF-8 decoding fails.  (On the empty byte string the
source raises `IndexError`; iterating a request stream line by line never
yields an empty line, and the theorems below assume nonempty lines.) -/
def decodeLine (line : List Nat) : String :=
  match utf8Dec line with
  | some cps => codepointsToString (splitFirst cps)
  | none => codepointsToString (splitFirst line)

/-! ### Python `in` on strings (substring test) -/

def startsWith : List Char → List Char → Bool
  | [], _ => true
  | _ :: _, [] => false
  | a :: as, b :: bs => a == b && startsWith as bs

def hasSub (pat : List Char) : List Char → Bool
  | [] => pat.isEmpty
  | c :: rest => startsWith pat (c :: rest) || hasSub pat rest

/-- Python `pat in s`. -/
def strContains (s pat : String) : Bool := hasSub pat.data s.data

/-! ### `read_data`: the multipart body scan -/

def cdMarker : String := "Content-Disposition:"

structure RDState where
  data : List Nat
  ending : Option String
  oldline : Option String
  found_data : Bool
  ignore_next : Bool
  deriving DecidableEq

/-- Python `ending and ending in line_str` (`None` and `""` are falsy). -/
def endingHit (e : Option String) (ls : String) : Bool :=
  match e with
  | none => false
  | some m => !(m == "") && strContains ls m

/-- The `for line in file` loop body of `read_data`, with `break` modelled by
returning the accumulated data. -/
def rdLoop : RDState → List (List Nat) → List Nat
  | st, [] => st.data
  | st, line :: rest =>
    let ls := decodeLine line
    if st.ignore_next then
      rdLoop ⟨st.data, st.ending, st.oldline, st.found_data, false⟩ rest
    else if strContains ls cdMarker then
      rdLoop ⟨st.data, st.oldline, st.oldline, true, true⟩ rest
    else if endingHit st.ending ls then
      st.data
    else if st.found_data then
      rdLoop ⟨st.data ++ line, st.ending, st.oldline, st.found_data, st.ignore_next⟩ rest
    else
      rdLoop ⟨st.data, st.ending, some ls, st.found_data, st.ignore_next⟩ rest

/-- Last element of a list, or a default: the value `oldline` holds after a
run of lines that only update it. -/
def lastOr (xs : List String) (d : Option String) : Option String :=
  match xs with
  | [] => d
  | x :: rest => lastOr rest (some x)

/-- The final `if len(data) >= 2 and data[-2:] == b"\r\n"` trim. -/
def stripTrailCRLF (data : List Nat) : List Nat :=
  if 2 ≤ data.length ∧ data.drop (data.length - 2) = [13, 10] then
    data.take (data.length - 2)
  else data

/-- `read_data(file)`: the request body as a list of its lines (raw bytes). -/
def read_data (lines : List (List Nat)) : List Nat :=
  stripTrailCRLF (rdLoop ⟨[], none, none, false, false⟩ lines)

/-! ### The store directory: `read_file` / `save_file` -/

/-- `read_file`: full contents of `datadir/filename`; `none` models the
`FileNotFoundError` that `open` raises when no such file exists. -/
def read_file (dd : List (String × List Nat)) (filename : String) : Option (List Nat) :=
  dd.lookup filename

/-- `save_file`: (over)write `datadir/name`.  `List.lookup` takes the first
matching entry, so prepending models create-or-overwrite. -/
def save_file (dd : List (String × List Nat)) (name : String) (data : List Nat) :
    List (String × List Nat) :=
  (name, data) :: dd

/-! ### `generate_name` -/

/-- The `for l in range(...)` loop of `generate_name`: the first prefix
candidate that `os.path.isfile` does not find.  NOTE the source passes the
bare candidate to `os.path.isfile`, so the check is against the process
working directory `cwd`, not against the store directory. -/
def pickName (cleaned : List Char) (cwd : List String) : List Nat → Option String
  | [] => none
  | l :: ls =>
    let check := String.mk (cleaned.take l)
    if cwd.contains check then pickName cleaned cwd ls else some check

/-- `generate_name()`, as a function of the string `str(time.time())` it
reads, the working-directory listing its `os.path.isfile` checks consult,
and `args.name_min_size`.  The base64 text is kept as its character list;
`.replace("/", "")` and `.replace(".", "")` are the two filters, and
`range(minSize, len(base64str))` is `List.range'` with count
`length - minSize`. -/
def generate_name (ts : String) (cwd : List String) (minSize : Nat) : Option String :=
  let ts_bytes := utf8Encode ts
  let hashbytes := sha1 ts_bytes
  let base64str := b64encode hashbytes
  let cleaned := (base64str.filter (fun c => c ≠ '/')).filter (fun c => c ≠ '.')
  pickName cleaned cwd (List.range' minSize (cleaned.length - minSize))

/-! ### The GET path check: `re.compile("^[a-zA-Z0-9+=]+$").match(path)` -/

def isNameChar (c : Char) : Bool :=
  decide ((65 ≤ c.toNat ∧ c.toNat ≤ 90) ∨ (97 ≤ c.toNat ∧ c.toNat ≤ 122) ∨
    (48 ≤ c.toNat ∧ c.toNat ≤ 57) ∨ c.toNat = 43 ∨ c.toNat = 61)

def allNameChars (l : List Char) : Bool := !l.isEmpty && l.all isNameChar

/-- Python `re.match` with the anchored pattern: `$` also matches just before
one trailing newline. -/
def reMatchName (s : String) : Bool :=
  allNameChars s.data ||
  (match s.data.getLast? with
   | some c => (c == '\n') && allNameChars s.data.dropLast
   | none => false)

/-! ### URL construction and the two handler methods -/

/-- The `hostname_and_port` computed at startup.  The source condition
`not (scheme == "http" and port == 80) or not (scheme == "https" and port == 443)`
selects the `host:port` form. -/
def hostname_and_port (scheme : String) (port : Nat) (hostname : String) : String :=
  if ¬(scheme = "http" ∧ port = 80) ∨ ¬(scheme = "https" ∧ port = 443) then
    hostname ++ ":" ++ toString port
  else hostname

/-- The body written by a successful POST. -/
def post_message (scheme : String) (port : Nat) (hostname : String) (name : String) : String :=
  scheme ++ "://" ++ hostname_and_port scheme port hostname ++ "/" ++ name ++ "\r\n"

structure PostResult where
  status : Nat
  message : String
  dd : List (String × List Nat)
  name : Option String
  gen_called : Bool
  save_called : Bool
  deriving DecidableEq

/-- `do_POST`: `none` models an uncaught exception (in particular the
`TypeError` from `os.path.join(datadir, None)` when `generate_name` returns
`None` and `save_file(None, data)` is called anyway). -/
def do_POST (scheme hostname : String) (port minSize : Nat)
    (dd : List (String × List Nat)) (cwd : List String) (ts : String)
    (body : List (List Nat)) : Option PostResult :=
  let data := read_data body
  if data.length = 0 then
    some ⟨400, "", dd, none, false, false⟩
  else
    match generate_name ts cwd minSize with
    | none => none
    | some n =>
        some ⟨200, post_message scheme port hostname n, save_file dd n data, some n, true, true⟩

/-- `do_GET`, as a function of the store directory and `self.path`; the
result is `(status, body)`, and `none` models the uncaught
`FileNotFoundError` escaping from `read_file`. -/
def do_GET (dd : List (String × List Nat)) (selfPath : String) : Option (Nat × List Nat) :=
  let path := String.mk (selfPath.data.drop 1)
  if reMatchName path = false then some (400, [])
  else
    match read_file dd path with
    | none => none
    | some data => if data.length = 0 then some (400, []) else some (200, data)

/-- ASCII bytes of a string, for concrete request lines in witnesses. -/
def asciiBytes (s : String) : List Nat := s.data.map Char.toNat

/-- The startup condition on line 125 is a De Morgan slip: it is true for
every scheme/port pair, so the `host:port` form is always chosen. -/
lemma hostname_and_port_eq (scheme : String) (port : Nat) (hostname : String) :
    hostname_and_port scheme port hostname = hostname ++ ":" ++ toString port := by
  unfold hostname_and_port
  have hcond : ¬(scheme = "http" ∧ port = 80) ∨ ¬(scheme = "https" ∧ port = 443) := by
    by_cases h : scheme = "http" ∧ port = 80
    · refine Or.inr (fun hc => ?_)
      rw [h.1] at hc
      exact absurd hc.1 (by decide)
    · exact Or.inl h
  rw [if_pos hcond]

lemma hasSub_head_mem (p : Char) (ps : List Char) :
    ∀ l : List Char, hasSub (p :: ps) l = true → p ∈ l := by
  intro l
  induction l with
  | nil => intro h; simp [hasSub, List.isEmpty] at h
  | cons c rest ih =>
      intro h
      rw [hasSub, Bool.or_eq_true] at h
      rcases h with h | h
      · rw [startsWith, Bool.and_eq_true, beq_iff_eq] at h
        exact h.1 ▸ List.mem_cons_self c rest
      · exact List.mem_cons_of_mem c (ih h)

lemma allNameChars_false_of_bad (l : List Char) (c : Char) (hc : c ∈ l)
    (hbad : isNameChar c = false) : allNameChars l = false := by
  rw [Bool.eq_false_iff]
  intro h
  rw [allNameChars, Bool.and_eq_true, List.all_eq_true] at h
  have hcn := h.2 c hc
  rw [hbad] at hcn
  cases hcn

/-- A character outside the accepted class that is not a trailing newline
defeats the anchored `re.match`. -/
lemma reMatch_false_of_bad (s : String) (c : Char) (hc : c ∈ s.data)
    (hbad : isNameChar c = false) (hnl : c ≠ '\n') : reMatchName s = false := by
  rw [Bool.eq_false_iff]
  intro h
  rw [reMatchName, Bool.or_eq_true] at h
  rcases h with h | h
  · rw [allNameChars_false_of_bad s.data c hc hbad] at h; cases h
  · have hne : s.data ≠ [] := List.ne_nil_of_mem hc
    rw [List.getLast?_eq_getLast_of_ne_nil hne] at h
    simp only [] at h
    rw [Bool.and_eq_true, beq_iff_eq] at h
    obtain ⟨h1, h2⟩ := h
    have hsplit := List.dropLast_append_getLast hne
    rw [← hsplit] at hc
    rcases List.mem_append.mp hc with hc' | hc'
    · rw [allNameChars_false_of_bad _ c hc' hbad] at h2; cases h2
    · have hcl : c = s.data.getLast hne := by simpa using hc'
      exact hnl (hcl.trans h1)

/-- Running the `read_data` loop over lines that never mention the
`Content-Disposition:` marker, starting from a state that has not yet found
the data: no byte is accumulated; only `oldline` is updated. -/
lemma rdLoop_seek (pre : List (List Nat)) :
    ∀ (st : RDState) (rest : List (List Nat)),
      st.found_data = false → st.ignore_next = false → st.ending = none →
      (∀ l ∈ pre, strContains (decodeLine l) cdMarker = false) →
      rdLoop st (pre ++ rest) =
        rdLoop ⟨st.data, none, lastOr (pre.map decodeLine) st.oldline, false, false⟩ rest := by
  induction pre with
  | nil =>
      intro st rest h1 h2 h3 _
      cases st
      simp_all [lastOr]
  | cons line pre ih =>
      intro st rest h1 h2 h3 hcd
      have hcd0 : strContains (decodeLine line) cdMarker = false :=
        hcd line (List.mem_cons_self line pre)
      rw [List.cons_append, rdLoop]
      simp only [h1, h2, h3, hcd0, endingHit, Bool.false_eq_true, if_false]
      rw [ih ⟨st.data, none, some (decodeLine line), false, false⟩ rest rfl rfl rfl
        (fun l hl => hcd l (List.mem_cons_of_mem line hl))]
      simp [lastOr]

lemma lastOr_eq (xs : List String) (d : Option String) :
    lastOr xs d = match xs.getLast? with | some x => some x | none => d := by
  induction xs generalizing d with
  | nil => rfl
  | cons x xs ih =>
      cases xs with
      | nil => rfl
      | cons y ys =>
          rw [lastOr, ih (some x), List.getLast?_cons_cons,
            List.getLast?_eq_getLast_of_ne_nil (List.cons_ne_nil y ys)]

/-- Running the `read_data` loop in the consuming state over lines that
neither mention `Content-Disposition:` nor the recorded nonempty marker
appends each line's raw bytes to the accumulated data. -/
lemma rdLoop_consume (mid : List (List Nat)) :
    ∀ (st : RDState) (rest : List (List Nat)) (m : String),
      st.found_data = true → st.ignore_next = false → st.ending = some m → m ≠ "" →
      (∀ l ∈ mid, strContains (decodeLine l) cdMarker = false ∧
        strContains (decodeLine l) m = false) →
      rdLoop st (mid ++ rest) =
        rdLoop ⟨st.data ++ mid.flatten, some m, st.oldline, true, false⟩ rest := by
  induction mid with
  | nil =>
      intro st rest m h1 h2 h3 _ _
      cases st
      simp_all
  | cons line mid ih =>
      intro st rest m h1 h2 h3 hm hmid
      have hl0 := hmid line (List.mem_cons_self line mid)
      rw [List.cons_append, rdLoop]
      simp only [h1, h2, h3, hl0.1, hl0.2, endingHit, Bool.false_eq_true, if_false,
        Bool.and_false, if_true]
      rw [ih ⟨st.data ++ line, some m, st.oldline, true, false⟩ rest m rfl rfl rfl hm
        (fun l hl => hmid l (List.mem_cons_of_mem line hl))]
      simp [List.append_assoc]

/-! ### base64 output alphabet and `pickName` facts, for C7 -/

lemma getD_mem_or_eq (l : List Char) :
    ∀ (n : Nat) (d : Char), l.getD n d ∈ l ∨ l.getD n d = d := by
  induction l with
  | nil => intro n d; right; rfl
  | cons x xs ih =>
      intro n d
      cases n with
      | zero => left; simp [List.getD]
      | succ n =>
          rcases ih n d with h | h
          · left
            simpa [List.getD] using List.mem_cons_of_mem x (by simpa [List.getD] using h)
          · right
            simpa [List.getD] using h

lemma b64Char_mem (n : Nat) : b64Char n ∈ bAlpha := by
  rcases getD_mem_or_eq bAlpha n 'A' with h | h
  · exact h
  · rw [b64Char, h]; decide

lemma bAlpha_good : ∀ c ∈ bAlpha, c = '/' ∨ isNameChar c = true := by decide

lemma b64encode_chars : ∀ (fuel : Nat) (bs : List Nat), bs.length ≤ fuel →
    ∀ c ∈ b64encode bs, c ∈ bAlpha ∨ c = '=' := by
  intro fuel
  induction fuel with
  | zero =>
      intro bs hlen c hc
      rw [List.length_eq_zero.mp (Nat.le_zero.mp hlen)] at hc
      simp [b64encode] at hc
  | succ fuel ih =>
      intro bs hlen c hc
      rcases bs with _ | ⟨b0, _ | ⟨b1, _ | ⟨b2, rest⟩⟩⟩
      · simp [b64encode] at hc
      · simp [b64encode] at hc
        rcases hc with rfl | rfl | rfl
        · exact Or.inl (b64Char_mem _)
        · exact Or.inl (b64Char_mem _)
        · exact Or.inr rfl
      · simp [b64encode] at hc
        rcases hc with rfl | rfl | rfl | rfl
        · exact Or.inl (b64Char_mem _)
        · exact Or.inl (b64Char_mem _)
        · exact Or.inl (b64Char_mem _)
        · exact Or.inr rfl
      · simp only [b64encode, List.mem_cons] at hc
        rcases hc with rfl | rfl | rfl | rfl | hc
        · exact Or.inl (b64Char_mem _)
        · exact Or.inl (b64Char_mem _)
        · exact Or.inl (b64Char_mem _)
        · exact Or.inl (b64Char_mem _)
        · exact ih rest (by simp at hlen; omega) c hc

lemma pickName_spec (cleaned : List Char) (cwd : List String) :
    ∀ (ls : List Nat) (ret : String), pickName cleaned cwd ls = some ret →
      cwd.contains ret = false ∧ ∃ l, l ∈ ls ∧ ret = String.mk (cleaned.take l) := by
  intro ls
  induction ls with
  | nil => intro ret h; simp [pickName] at h
  | cons l ls ih =>
      intro ret h
      simp only [pickName] at h
      by_cases hc : cwd.contains (String.mk (cleaned.take l)) = true
      · rw [if_pos hc] at h
        obtain ⟨h1, l', hl', h2⟩ := ih ret h
        exact ⟨h1, l', List.mem_cons_of_mem l hl', h2⟩
      · rw [if_neg hc] at h
        cases h
        exact ⟨Bool.eq_false_iff.mpr hc, l, List.mem_cons_self l ls, rfl⟩

end LocalPaste

open LocalPaste

/-- Claim C1: round-trip identity — storing a non-empty payload `P` under a
freshly generated name with `save_file` and reading that name back with
`read_file` returns exactly `P`, byte for byte. -/
theorem c1_roundtrip (dd : List (String × List Nat)) (cwd : List String) (ts : String)
    (minSize : Nat) (P : List Nat) (name : String) (_hP : P ≠ [])
    (_hgen : generate_name ts cwd minSize = some name) :
    read_file (save_file dd name P) name = some P := by
  simp [read_file, save_file, List.lookup]

/-- Witness for `c1_roundtrip` at a concrete timestamp and payload. -/
theorem c1_roundtrip_witness :
    read_file (save_file [] "TF5K" (asciiBytes "hi")) "TF5K" = some (asciiBytes "hi") :=
  c1_roundtrip [] [] "1700000000.0" 4 (asciiBytes "hi") "TF5K" (by decide) (by decide)

/-- Claim C5: a POST whose extracted payload is empty is answered with
status 400 and no body; no name is generated, nothing is saved, and the
store directory is unchanged. -/
theorem c5_empty_payload (scheme hostname : String) (port minSize : Nat)
    (dd : List (String × List Nat)) (cwd : List String) (ts : String)
    (body : List (List Nat)) (_hne : ∀ l ∈ body, l ≠ [])
    (h : read_data body = []) :
    do_POST scheme hostname port minSize dd cwd ts body =
      some ⟨400, "", dd, none, false, false⟩ := by
  simp [do_POST, h]

/-- Witness for `c5_empty_payload`: a multipart body with an empty field. -/
theorem c5_empty_payload_witness :
    do_POST "http" "example.com" 6542 4 [("keep", [1])] [] "1700000000.0"
      [asciiBytes "--b\r\n", asciiBytes "Content-Disposition: form-data; name=x\r\n",
       asciiBytes "\r\n", asciiBytes "--b--\r\n"] =
      some ⟨400, "", [("keep", [1])], none, false, false⟩ :=
  c5_empty_payload "http" "example.com" 6542 4 [("keep", [1])] [] "1700000000.0"
    _ (by decide) (by decide)

/-- Claim C10: every successful POST response body is
`scheme://hostname:port/name` followed by CRLF — the port is never omitted,
because the hostname-only branch of the startup condition is unreachable. -/
theorem c10_port_never_omitted (scheme hostname ts : String) (port minSize : Nat)
    (dd : List (String × List Nat)) (cwd : List String) (body : List (List Nat))
    (r : PostResult) (h : do_POST scheme hostname port minSize dd cwd ts body = some r)
    (h200 : r.status = 200) :
    ∃ n, r.name = some n ∧
      r.message = scheme ++ "://" ++ hostname ++ ":" ++ toString port ++ "/" ++ n ++ "\r\n" := by
  simp only [do_POST] at h
  by_cases hlen : (read_data body).length = 0
  · rw [if_pos hlen] at h
    cases h
    simp at h200
  · rw [if_neg hlen] at h
    cases hgen : generate_name ts cwd minSize with
    | none => rw [hgen] at h; cases h
    | some n =>
        rw [hgen] at h
        cases h
        refine ⟨n, rfl, ?_⟩
        simp [post_message, hostname_and_port_eq, String.append_assoc]

/-- Witness for `c10_port_never_omitted` at a concrete successful upload. -/
theorem c10_port_never_omitted_witness :
    ∃ n, (some "TF5K" : Option String) = some n ∧
      ("http://example.com:6542/TF5K\r\n" : String) =
        "http" ++ "://" ++ "example.com" ++ ":" ++ toString 6542 ++ "/" ++ n ++ "\r\n" :=
  c10_port_never_omitted "http" "example.com" "1700000000.0" 6542 4 [] []
    [asciiBytes "--b\r\n", asciiBytes "Content-Disposition: form-data; name=x\r\n",
     asciiBytes "\r\n", asciiBytes "hello\r\n", asciiBytes "--b--\r\n"]
    ⟨200, "http://example.com:6542/TF5K\r\n",
      [("TF5K", asciiBytes "hello")], some "TF5K", true, true⟩
    (by decide) rfl

/-- Claim C4 counterexample: on an empty store, `GET /doesnotexist1234` does
not produce the claimed 400 response — `read_file` raises
`FileNotFoundError` (modelled as `none`) and the request goes unanswered. -/
theorem c4_counterexample :
    do_GET [] "/doesnotexist1234" = none ∧
    do_GET [] "/doesnotexist1234" ≠ some (400, []) := by
  exact ⟨by decide, by decide⟩

/-- Claim C4 (amended): for a GET whose name matches the accepted pattern,
a 400 empty-body response is sent only when a file of that name exists with
empty contents; when no such file exists, the `FileNotFoundError` raised by
`read_file` escapes the handler and no response is sent at all. -/
theorem c4_missing_file_raises (dd : List (String × List Nat)) (p : String)
    (hm : reMatchName (String.mk (p.data.drop 1)) = true) :
    (read_file dd (String.mk (p.data.drop 1)) = none → do_GET dd p = none) ∧
    (read_file dd (String.mk (p.data.drop 1)) = some [] → do_GET dd p = some (400, [])) := by
  have hm' := hm
  simp only [List.drop_one] at hm'
  refine ⟨fun hr => ?_, fun hr => ?_⟩ <;>
    (simp only [List.drop_one] at hr; simp [do_GET, hm', hr])

/-- Witness for `c4_missing_file_raises`: a store holding only an empty
paste `ab12`. -/
theorem c4_missing_file_raises_witness :
    do_GET [("ab12", [])] "/zzzz" = none ∧
    do_GET [("ab12", [])] "/ab12" = some (400, []) :=
  ⟨(c4_missing_file_raises [("ab12", [])] "/zzzz" (by decide)).1 (by decide),
   (c4_missing_file_raises [("ab12", [])] "/ab12" (by decide)).2 (by decide)⟩

/-- Claim C3: a GET whose path (leading separator stripped) fails the
accepted-name pattern is answered 400 with empty body and without touching
the store — the response is the same for every store contents.  Moreover a
stripped path containing a slash, the substring `..`, or any character
outside the class other than a trailing newline (HTTP request-line parsing
splits on whitespace, so a path never contains a newline) always fails. -/
theorem c3_invalid_path_rejected (selfPath : String) :
    (reMatchName (String.mk (selfPath.data.drop 1)) = false →
      ∀ dd : List (String × List Nat), do_GET dd selfPath = some (400, [])) ∧
    (∀ c ∈ selfPath.data.drop 1, isNameChar c = false → c ≠ '\n' →
      reMatchName (String.mk (selfPath.data.drop 1)) = false) ∧
    ('/' ∈ selfPath.data.drop 1 → reMatchName (String.mk (selfPath.data.drop 1)) = false) ∧
    (hasSub ['.', '.'] (selfPath.data.drop 1) = true →
      reMatchName (String.mk (selfPath.data.drop 1)) = false) := by
  refine ⟨?_, ?_, ?_, ?_⟩
  · intro h dd
    simp only [do_GET]
    rw [h]
    simp
  · intro c hc hbad hnl
    exact reMatch_false_of_bad _ c hc hbad hnl
  · intro h
    exact reMatch_false_of_bad _ '/' h (by decide) (by decide)
  · intro h
    exact reMatch_false_of_bad _ '.' (hasSub_head_mem '.' ['.'] _ h) (by decide) (by decide)

/-- Witness for `c3_invalid_path_rejected`: a traversal-shaped path is
rejected even though the store holds a matching paste. -/
theorem c3_invalid_path_rejected_witness :
    do_GET [("abcd", [104])] "/abcd/x" = some (400, []) ∧
    reMatchName (String.mk ("/abcd/x".data.drop 1)) = false :=
  ⟨(c3_invalid_path_rejected "/abcd/x").1
      ((c3_invalid_path_rejected "/abcd/x").2.2.1 (by decide)) [("abcd", [104])],
   (c3_invalid_path_rejected "/abcd/x").2.2.1 (by decide)⟩

/-- Claim C9: if no line of the body mentions `Content-Disposition:`,
`read_data` returns the empty byte string and the POST is answered 400 with
no body, no name generation and no save. -/
theorem c9_no_cd_line (scheme hostname : String) (port minSize : Nat)
    (dd : List (String × List Nat)) (cwd : List String) (ts : String)
    (body : List (List Nat)) (_hne : ∀ l ∈ body, l ≠ [])
    (hcd : ∀ l ∈ body, strContains (decodeLine l) cdMarker = false) :
    read_data body = [] ∧
    do_POST scheme hostname port minSize dd cwd ts body =
      some ⟨400, "", dd, none, false, false⟩ := by
  have h0 : read_data body = [] := by
    unfold read_data
    have hrun := rdLoop_seek body ⟨[], none, none, false, false⟩ [] rfl rfl rfl hcd
    rw [List.append_nil] at hrun
    rw [hrun]
    rfl
  exact ⟨h0, by simp [do_POST, h0]⟩

/-- Witness for `c9_no_cd_line`: a plain one-line body. -/
theorem c9_no_cd_line_witness :
    read_data [asciiBytes "hello\r\n"] = [] ∧
    do_POST "http" "example.com" 6542 4 [] [] "1700000000.0" [asciiBytes "hello\r\n"] =
      some ⟨400, "", [], none, false, false⟩ :=
  c9_no_cd_line "http" "example.com" 6542 4 [] [] "1700000000.0"
    [asciiBytes "hello\r\n"] (by decide) (by decide)

/-- Claim C2 is refuted by the source: the freshness loop passes the bare
candidate to `os.path.isfile`, so it consults the process working directory
and never `args.datadir` (where `save_file` writes).  With the 4-character
digest prefix `TF5K` already present as a paste in the store directory (and
absent from the working directory), `generate_name` still returns `TF5K`. -/
theorem c2_failing_input :
    generate_name "1700000000.0" [] 4 = some "TF5K" ∧
    read_file [("TF5K", asciiBytes "old paste")] "TF5K" = some (asciiBytes "old paste") :=
  ⟨by decide, by decide⟩

/-- Claim C8 is refuted by the source, for the same reason as C2: saved
pastes live in the store directory while the freshness check looks in the
working directory, so when `str(time.time())` repeats across two sequential
POSTs both get the same name and the second silently overwrites the first
paste. -/
theorem c8_failing_input :
    (do_POST "http" "example.com" 6542 4 [] [] "1700000000.0"
        [asciiBytes "--b\r\n", asciiBytes "Content-Disposition: form-data; name=x\r\n",
         asciiBytes "\r\n", asciiBytes "hello\r\n", asciiBytes "--b--\r\n"]).map
        (fun r => (r.name, r.dd)) =
      some (some "TF5K", [("TF5K", asciiBytes "hello")]) ∧
    (do_POST "http" "example.com" 6542 4 [("TF5K", asciiBytes "hello")] [] "1700000000.0"
        [asciiBytes "--b\r\n", asciiBytes "Content-Disposition: form-data; name=x\r\n",
         asciiBytes "\r\n", asciiBytes "world\r\n", asciiBytes "--b--\r\n"]).map
        (fun r => (r.name, r.dd)) =
      some (some "TF5K", [("TF5K", asciiBytes "world"), ("TF5K", asciiBytes "hello")]) ∧
    read_file [("TF5K", asciiBytes "world"), ("TF5K", asciiBytes "hello")] "TF5K" =
      some (asciiBytes "world") ∧
    ¬ (["TF5K", "TF5K"] : List String).Nodup :=
  ⟨by decide, by decide, by decide, by decide⟩

/-- Claim C6 counterexample: a consuming-phase line that itself contains
`Content-Disposition:` is not appended to the payload and additionally
causes the following line to be dropped, so the lines before the terminator
do NOT all contribute their raw bytes: here the returned payload is empty
although the two consuming lines are nonempty. -/
theorem c6_counterexample :
    read_data
      [asciiBytes "--b\r\n", asciiBytes "Content-Disposition: form-data; name=x\r\n",
       asciiBytes "\r\n", asciiBytes "xContent-Disposition:y\r\n", asciiBytes "world\r\n",
       asciiBytes "--b--\r\n"] = [] ∧
    stripTrailCRLF
      (List.flatten [asciiBytes "xContent-Disposition:y\r\n", asciiBytes "world\r\n"]) ≠ [] :=
  ⟨by decide, by decide⟩

/-- Claim C6 (amended): once the `Content-Disposition:` line records the
previous line's decoded text as the (nonempty) boundary marker, the line
immediately after it is skipped; then, provided no later line itself
contains `Content-Disposition:`, the first line whose decoded text contains
the marker ends consumption, every line from it onward (epilogue included)
contributes nothing, and the raw bytes of the lines in between form the
returned payload (subject to the final CRLF trim). -/
theorem c6_boundary (pre mid rest : List (List Nat))
    (cd skipLine termLine : List Nat) (m : String)
    (_hne : ∀ l ∈ pre ++ cd :: skipLine :: (mid ++ termLine :: rest), l ≠ [])
    (hpre : ∀ l ∈ pre, strContains (decodeLine l) cdMarker = false)
    (hlast : (pre.map decodeLine).getLast? = some m)
    (hm : m ≠ "")
    (hcd : strContains (decodeLine cd) cdMarker = true)
    (hmid : ∀ l ∈ mid, strContains (decodeLine l) cdMarker = false ∧
      strContains (decodeLine l) m = false)
    (hterm1 : strContains (decodeLine termLine) cdMarker = false)
    (hterm2 : strContains (decodeLine termLine) m = true) :
    read_data (pre ++ cd :: skipLine :: (mid ++ termLine :: rest)) =
      stripTrailCRLF mid.flatten := by
  unfold read_data
  rw [rdLoop_seek pre ⟨[], none, none, false, false⟩ _ rfl rfl rfl hpre]
  have hlo : lastOr (pre.map decodeLine) none = some m := by
    rw [lastOr_eq, hlast]
  rw [hlo]
  rw [rdLoop]
  simp only [hcd, Bool.false_eq_true, if_false, if_true]
  rw [rdLoop]
  simp only [if_true]
  rw [rdLoop_consume mid ⟨[], some m, some m, true, false⟩ (termLine :: rest) m
    rfl rfl rfl hm hmid]
  rw [rdLoop]
  simp only [hterm1, hterm2, endingHit, Bool.false_eq_true, if_false, Bool.and_true]
  simp [hm]

/-- Witness for `c6_boundary` on a concrete well-formed multipart body with
a trailing epilogue line. -/
theorem c6_boundary_witness :
    read_data
      [asciiBytes "--b\r\n", asciiBytes "Content-Disposition: form-data; name=x\r\n",
       asciiBytes "\r\n", asciiBytes "hello\r\n", asciiBytes "--b--\r\n",
       asciiBytes "epilogue\r\n"] = asciiBytes "hello" :=
  (c6_boundary [asciiBytes "--b\r\n"] [asciiBytes "hello\r\n"] [asciiBytes "epilogue\r\n"]
    (asciiBytes "Content-Disposition: form-data; name=x\r\n") (asciiBytes "\r\n")
    (asciiBytes "--b--\r\n") "--b" (by decide) (by decide) (by decide) (by decide)
    (by decide) (by decide) (by decide) (by decide)).trans (by decide)

/-- Claim C7: with a positive configured minimum size (the configuration
contract requires `nameMinSize` positive; the CLI default is 4), every name
`generate_name` returns matches the accepted pattern `^[A-Za-z0-9+=]+$` and
is at least `nameMinSize` characters long. -/
theorem c7_name_valid (ts : String) (cwd : List String) (minSize : Nat) (name : String)
    (hmin : 1 ≤ minSize) (hgen : generate_name ts cwd minSize = some name) :
    reMatchName name = true ∧ minSize ≤ name.length := by
  simp only [generate_name] at hgen
  obtain ⟨-, l, hl, hname⟩ := pickName_spec _ _ _ _ hgen
  rw [List.mem_range'_1] at hl
  set cl := ((b64encode (sha1 (utf8Encode ts))).filter (fun c => c ≠ '/')).filter
    (fun c => c ≠ '.') with hcl
  have hllen : l < cl.length := by omega
  have hnamedata : name.data = cl.take l := by rw [hname]
  have hlentake : name.length = l := by
    simp only [String.length, hnamedata, List.length_take]
    omega
  have hchars : ∀ c ∈ cl.take l, isNameChar c = true := by
    intro c hc
    have hc1 : c ∈ cl := List.take_subset l cl hc
    rw [hcl] at hc1
    have hc2 := List.mem_filter.mp hc1
    have hc3 := List.mem_filter.mp hc2.1
    have hslash : c ≠ '/' := by simpa using hc3.2
    rcases b64encode_chars (sha1 (utf8Encode ts)).length (sha1 (utf8Encode ts)) le_rfl
        c hc3.1 with hmem | rfl
    · rcases bAlpha_good c hmem with rfl | h
      · exact absurd rfl hslash
      · exact h
    · decide
  refine ⟨?_, by rw [hlentake]; exact hl.1⟩
  rw [reMatchName, Bool.or_eq_true]
  left
  rw [allNameChars, Bool.and_eq_true]
  constructor
  · have hne : name.data ≠ [] := by
      rw [hnamedata]
      refine List.length_pos.mp ?_
      rw [List.length_take]
      omega
    simp [hne]
  · rw [List.all_eq_true]
    intro c hc
    exact hchars c (by rwa [hnamedata] at hc)

/-- Witness for `c7_name_valid` at a concrete timestamp and empty working
directory. -/
theorem c7_name_valid_witness :
    reMatchName "TF5K" = true ∧ 4 ≤ ("TF5K" : String).length :=
  c7_name_valid "1700000000.0" [] 4 "TF5K" (by decide) (by decide)
